import Mathlib

/-!
# Verification of the email-backend scheduling, throttling and qualification core

Shallow embedding of the core logic of the `moksh009/email-backend` repository:

* `src/deliverabilityService.js` — per-sender reputation records
  (`initSenderStats`, `logEmailEvent`) and the qualification gate
  (`checkQualification`);
* `src/emailService.js` — the multi-sender send loop (`sendEmail`) and the
  persistent job queue with its transactional claim loop
  (`processDueScheduledEmails`);
* `src/schedulerService.js` and the unnamed scheduler variant
  (`src/unnamed/part_002`) — the follow-up due-scan and the serialized
  dispatch queue (`processQueue`, `checkPendingFollowUps`).

I/O plumbing (file/DB persistence, SMTP transport, DNS lookups) is abstracted
into explicit parameters: the transport is a function from sender/job id to an
outcome, the domain-health lookup is a value of type `DnsOutcome`, storage
faults are injected as explicit parameters, and `Math.random()` is an oracle
of rationals in `[0, 1)`.
-/

namespace EmailBackend

/-! ## Reputation store (src/deliverabilityService.js) -/

/-- Event types accepted by `logEmailEvent`. -/
inductive EventType
  | sent
  | bounce
  | error
  | test_success
  | test_spam
  deriving DecidableEq, Repr

/-- Result of one test send, as stored in `testSends`
    (`'primary'` or `'spam'` in the source). -/
inductive TestResult
  | primary
  | spam
  deriving DecidableEq, Repr

/-- One entry of `senderStats.testSends`: `{ ts, result, ...meta }`. -/
structure TestSend where
  ts : Int
  result : TestResult
  deriving DecidableEq, Repr

/-- One entry of `senderStats.history`: `{ ts, type, ...meta }`. -/
structure HistEntry where
  ts : Int
  type : EventType
  deriving DecidableEq, Repr

/-- The `warmupStatus` sub-record. `lastSentDate` is `null` or a calendar-date
    string (`toISOString().split('T')[0]` in the source). -/
structure WarmupStatus where
  stage : Nat
  dailyCount : Nat
  lastSentDate : Option String
  deriving DecidableEq, Repr

/-- One per-sender reputation record, as created by `initSenderStats`. -/
structure SenderStats where
  totalSent : Nat
  totalBounces : Nat
  totalErrors : Nat
  history : List HistEntry
  testSends : List TestSend
  warmupStatus : WarmupStatus
  deriving DecidableEq, Repr

/-- `initSenderStats`: the zero-valued record created on first use. -/
def initSenderStats : SenderStats :=
  { totalSent := 0
    totalBounces := 0
    totalErrors := 0
    history := []
    testSends := []
    warmupStatus := { stage := 1, dailyCount := 0, lastSentDate := none } }

/-- One call to `logEmailEvent`: the event type together with the wall clock
    observed during the call (`Date.now()` and today's calendar date). -/
structure Ev where
  type : EventType
  today : String
  now : Int
  deriving DecidableEq, Repr

/-- The history entry pushed by `logEmailEvent` (`{ ts: now, type, ...meta }`). -/
def histEntryOf (e : Ev) : HistEntry :=
  { ts := e.now, type := e.type }

/-- Whether the event is one of the two test-send types. -/
def isTestEv (e : Ev) : Bool :=
  e.type == EventType.test_success || e.type == EventType.test_spam

/-- The test-send entry pushed by `logEmailEvent` for test events. -/
def testEntryOf (e : Ev) : TestSend :=
  { ts := e.now
    result := if e.type == EventType.test_success then TestResult.primary else TestResult.spam }

/-- Counter block of `logEmailEvent`: `totalSent++` / `totalBounces++` /
    `totalErrors++` guarded by the event type. -/
def counterStep (s : SenderStats) (t : EventType) : SenderStats :=
  { s with
    totalSent := if t == EventType.sent then s.totalSent + 1 else s.totalSent
    totalBounces := if t == EventType.bounce then s.totalBounces + 1 else s.totalBounces
    totalErrors := if t == EventType.error then s.totalErrors + 1 else s.totalErrors }

/-- Warmup block of `logEmailEvent`: on a `sent` event, reset `dailyCount` to 0
    and stamp `lastSentDate` when the calendar date changed, then increment. -/
def warmupStep (s : SenderStats) (e : Ev) : SenderStats :=
  if e.type == EventType.sent then
    let w := s.warmupStatus
    let w := if w.lastSentDate != some e.today then
               { w with dailyCount := 0, lastSentDate := some e.today }
             else w
    { s with warmupStatus := { w with dailyCount := w.dailyCount + 1 } }
  else s

/-- Test-send block of `logEmailEvent`: push, then drop the front entry when
    the list exceeds 50 (`testSends.shift()`). -/
def testStep (s : SenderStats) (e : Ev) : SenderStats :=
  if isTestEv e then
    let ts := s.testSends ++ [testEntryOf e]
    { s with testSends := if ts.length > 50 then ts.tail else ts }
  else s

/-- History block of `logEmailEvent`: push, then drop the front entry when the
    list exceeds 1000 (`history.shift()`). -/
def histStep (s : SenderStats) (e : Ev) : SenderStats :=
  let h := s.history ++ [histEntryOf e]
  { s with history := if h.length > 1000 then h.tail else h }

/-- `logEmailEvent(senderId, type, meta)` restricted to the per-record
    transformation (the surrounding load/save is I/O glue). The four blocks
    run in source order. -/
def logEmailEvent (s : SenderStats) (e : Ev) : SenderStats :=
  histStep (testStep (warmupStep (counterStep s e.type) e) e) e

/-- The record obtained by replaying a sequence of events against the
    zero-valued initial record. -/
def replay (es : List Ev) : SenderStats :=
  es.foldl logEmailEvent initSenderStats

/-! ## Qualification gate (src/deliverabilityService.js, checkQualification) -/

/-- The `{spf,dkim,dmarc}` validity flags returned by `checkDomainSecurity`. -/
structure DnsHealth where
  spf : Bool
  dkim : Bool
  dmarc : Bool
  deriving DecidableEq, Repr

/-- Outcome of the domain-health lookup in `checkQualification`: no domain
    given, a successful lookup, or a thrown error (caught in the source). -/
inductive DnsOutcome
  | noDomain
  | ok (h : DnsHealth)
  | failed (msg : String)
  deriving DecidableEq, Repr

def spfReason : String := "SPF record is missing or invalid."

def dkimReason : String := "DKIM record is missing."

def dmarcReason : String := "DMARC record is missing."

def dnsFailedReason (msg : String) : String := "DNS Check failed: " ++ msg

/-- Reason text for fewer than 5 test sends; carries the exact current count. -/
def insufficientReason (n : Nat) : String :=
  "Insufficient test data. Run at least 5 verification tests (Current: " ++
    toString n ++ ")."

/-- `rate.toFixed(1)` for the non-negative rates of this file: render a
    rational rounded (half away from zero) to one decimal place. -/
def fixed1 (q : ℚ) : String :=
  let t : Int := Int.floor (q * 10 + 1 / 2)
  toString (t / 10) ++ "." ++ toString (t % 10)

/-- Reason text for an inbox-placement rate below 95%. -/
def placementReason (rate : ℚ) : String :=
  "Inbox placement rate is " ++ fixed1 rate ++ "% (Required: 95%)."

/-- Reason text for bounces; carries the exact bounce count and window size. -/
def bounceReason (bounces window : Nat) : String :=
  "Detected " ++ toString bounces ++ " bounces in last " ++ toString window ++
    " sends. Hard bounce rate must be 0%."

/-- JavaScript `slice(-n)`: the last `n` elements of a list. -/
def sliceLast (n : Nat) (l : List α) : List α :=
  l.drop (l.length - n)

/-- The `recentSends` window of `checkQualification`: `sent`/`bounce` history
    entries, most recent 100 only. -/
def relevantHistory (s : SenderStats) : List HistEntry :=
  sliceLast 100 (s.history.filter fun h =>
    h.type == EventType.sent || h.type == EventType.bounce)

/-- The verdict returned by `checkQualification` (`metrics.dnsHealth` is the
    `DnsOutcome` input itself and is omitted). -/
structure Verdict where
  allowed : Bool
  reasons : List String
  inboxPlacement : ℚ
  testCount : Nat
  deriving DecidableEq, Repr

/-- The `rate` computed in the test-send block:
    `primaryCount / tests.length * 100`. -/
def testRate (s : SenderStats) : ℚ :=
  (((s.testSends.filter fun t => t.result == TestResult.primary).length : ℚ) /
    (s.testSends.length : ℚ)) * 100

/-- The `bounces` count of the bounce block. -/
def bounceCount (s : SenderStats) : Nat :=
  ((relevantHistory s).filter fun h => h.type == EventType.bounce).length

/-- Block 1 of `checkQualification`: the DNS checks, threading the
    `(allowed, reasons)` accumulator exactly as the source does. A thrown
    lookup appends a reason without clearing `allowed` (the catch block in
    the source does not touch `allowed`). -/
def dnsStepQ (dns : DnsOutcome) : Bool × List String :=
  match dns with
  | DnsOutcome.noDomain => (true, [])
  | DnsOutcome.failed msg => (true, [dnsFailedReason msg])
  | DnsOutcome.ok h =>
    let pa : Bool × List String :=
      if !h.spf then (false, [spfReason]) else (true, [])
    let pb : Bool × List String :=
      if !h.dkim then (false, pa.2 ++ [dkimReason]) else pa
    if !h.dmarc then (false, pb.2 ++ [dmarcReason]) else pb

/-- Block 2 of `checkQualification`: test-send sufficiency and placement
    rate, threading the accumulator (`if/else` as in the source: the rate
    check runs only when at least 5 test sends exist). -/
def testStepQ (s : SenderStats) (p : Bool × List String) : Bool × List String :=
  if s.testSends.length < 5 then
    (false, p.2 ++ [insufficientReason s.testSends.length])
  else if testRate s < 95 then
    (false, p.2 ++ [placementReason (testRate s)])
  else p

/-- Block 3 of `checkQualification`: the bounce check over the recent-100
    window, threading the accumulator. -/
def bounceStepQ (s : SenderStats) (p : Bool × List String) : Bool × List String :=
  if 0 < (relevantHistory s).length then
    if 0 < bounceCount s then
      (false, p.2 ++ [bounceReason (bounceCount s) (relevantHistory s).length])
    else p
  else p

/-- `checkQualification(senderId, domain)` as a pure function of the sender's
    record and the domain-health outcome. `allowed` starts `true`, the three
    blocks run in source order, each may clear it and append reasons. -/
def checkQualification (s : SenderStats) (dns : DnsOutcome) : Verdict :=
  let p3 := bounceStepQ s (testStepQ s (dnsStepQ dns))
  { allowed := p3.1
    reasons := p3.2
    inboxPlacement :=
      if s.testSends.length > 0 then
        ((s.testSends.filter fun t => t.result == TestResult.primary).length : ℚ) /
          (s.testSends.length : ℚ) * 100
      else 0
    testCount := s.testSends.length }

/-- The DNS block of `checkQualification`, evaluated on its own: allowed iff
    all three records are valid; one reason per invalid record; a thrown
    lookup appends a reason without clearing `allowed` (the catch block in the
    source does not touch `allowed`). -/
def dnsPart (dns : DnsOutcome) : Bool × List String :=
  match dns with
  | DnsOutcome.noDomain => (true, [])
  | DnsOutcome.failed msg => (true, [dnsFailedReason msg])
  | DnsOutcome.ok h =>
    (h.spf && h.dkim && h.dmarc,
     (if !h.spf then [spfReason] else []) ++
       ((if !h.dkim then [dkimReason] else []) ++
         (if !h.dmarc then [dmarcReason] else [])))

/-- The test-send block of `checkQualification`, evaluated on its own. Note
    the `if/else` of the source: the placement-rate test only runs when at
    least 5 test sends exist. -/
def testPart (s : SenderStats) : Bool × List String :=
  if s.testSends.length < 5 then
    (false, [insufficientReason s.testSends.length])
  else if testRate s < 95 then
    (false, [placementReason (testRate s)])
  else (true, [])

/-- The bounce block of `checkQualification`, evaluated on its own. -/
def bouncePart (s : SenderStats) : Bool × List String :=
  if 0 < (relevantHistory s).length then
    if 0 < bounceCount s then
      (false, [bounceReason (bounceCount s) (relevantHistory s).length])
    else (true, [])
  else (true, [])

theorem dnsStepQ_decomp (dns : DnsOutcome) :
    dnsStepQ dns = ((dnsPart dns).1, (dnsPart dns).2) := by
  cases dns with
  | noDomain => rfl
  | failed msg => rfl
  | ok h =>
    obtain ⟨sp, dk, dm⟩ := h
    cases sp <;> cases dk <;> cases dm <;> rfl

theorem testStepQ_decomp (s : SenderStats) (p : Bool × List String) :
    testStepQ s p = (p.1 && (testPart s).1, p.2 ++ (testPart s).2) := by
  simp only [testStepQ, testPart]
  by_cases h5 : s.testSends.length < 5
  · rw [if_pos h5, if_pos h5]
    simp
  · rw [if_neg h5, if_neg h5]
    by_cases hr : testRate s < 95
    · rw [if_pos hr, if_pos hr]
      simp
    · rw [if_neg hr, if_neg hr]
      simp

theorem bounceStepQ_decomp (s : SenderStats) (p : Bool × List String) :
    bounceStepQ s p = (p.1 && (bouncePart s).1, p.2 ++ (bouncePart s).2) := by
  simp only [bounceStepQ, bouncePart]
  by_cases hlen : 0 < (relevantHistory s).length
  · rw [if_pos hlen, if_pos hlen]
    by_cases hb : 0 < bounceCount s
    · rw [if_pos hb, if_pos hb]
      simp
    · rw [if_neg hb, if_neg hb]
      simp
  · rw [if_neg hlen, if_neg hlen]
    simp

/-- The verdict decomposes into the three blocks: the final `allowed` is the
    conjunction of the per-block flags and the reasons list is the
    concatenation of the per-block reason lists, in source order. -/
theorem checkQualification_decomp (s : SenderStats) (dns : DnsOutcome) :
    (checkQualification s dns).allowed
        = ((dnsPart dns).1 && ((testPart s).1 && (bouncePart s).1)) ∧
    (checkQualification s dns).reasons
        = (dnsPart dns).2 ++ ((testPart s).2 ++ (bouncePart s).2) := by
  have h : bounceStepQ s (testStepQ s (dnsStepQ dns))
      = ((dnsPart dns).1 && ((testPart s).1 && (bouncePart s).1),
         (dnsPart dns).2 ++ ((testPart s).2 ++ (bouncePart s).2)) := by
    rw [dnsStepQ_decomp, testStepQ_decomp, bounceStepQ_decomp]
    simp [Bool.and_assoc]
  constructor
  · show (bounceStepQ s (testStepQ s (dnsStepQ dns))).1 = _
    rw [h]
  · show (bounceStepQ s (testStepQ s (dnsStepQ dns))).2 = _
    rw [h]

/-- **C6.** Whenever a sender's record carries fewer than 5 test sends, the
    qualification verdict disallows — regardless of the domain-health
    outcome — and the reasons contain the insufficiency text carrying the
    exact current count. -/
theorem qualification_insufficient_tests (s : SenderStats) (dns : DnsOutcome)
    (h : s.testSends.length < 5) :
    (checkQualification s dns).allowed = false ∧
    insufficientReason s.testSends.length ∈ (checkQualification s dns).reasons := by
  obtain ⟨ha, hr⟩ := checkQualification_decomp s dns
  have h1 : (testPart s).1 = false := by simp [testPart, h]
  have h2 : (testPart s).2 = [insufficientReason s.testSends.length] := by
    simp [testPart, h]
  constructor
  · rw [ha, h1]
    simp
  · rw [hr, h2]
    simp

/-- C6 witness: the freshly initialized record has 0 test sends and is
    disallowed with the reason reporting `Current: 0`. -/
theorem qualification_insufficient_tests_witness :
    (checkQualification initSenderStats DnsOutcome.noDomain).allowed = false ∧
    insufficientReason initSenderStats.testSends.length ∈
      (checkQualification initSenderStats DnsOutcome.noDomain).reasons :=
  qualification_insufficient_tests initSenderStats DnsOutcome.noDomain (by decide)

/-- **C7.** The bounce check looks only at the most recent 100 `sent`/`bounce`
    history entries; any bounce in that window disallows, with a reason
    carrying the exact bounce count and the window size. -/
theorem qualification_bounce_strict (s : SenderStats) (dns : DnsOutcome)
    (hb : 0 < bounceCount s) :
    (checkQualification s dns).allowed = false ∧
    bounceReason (bounceCount s) (relevantHistory s).length ∈
      (checkQualification s dns).reasons := by
  obtain ⟨ha, hr⟩ := checkQualification_decomp s dns
  have hlen : 0 < (relevantHistory s).length :=
    lt_of_lt_of_le hb (List.length_filter_le _ _)
  have h1 : (bouncePart s).1 = false := by
    simp only [bouncePart]
    rw [if_pos hlen, if_pos hb]
  have h2 : (bouncePart s).2 =
      [bounceReason (bounceCount s) (relevantHistory s).length] := by
    simp only [bouncePart]
    rw [if_pos hlen, if_pos hb]
  constructor
  · rw [ha, h1]
    simp
  · rw [hr, h2]
    simp

/-- A record whose history is 50 `sent` entries and exactly 1 `bounce`. -/
def c7Stats : SenderStats :=
  { initSenderStats with
      history := List.replicate 50 { ts := 0, type := EventType.sent } ++
        [{ ts := 1, type := EventType.bounce }] }

/-- C7 witness: with 50 `sent` and 1 `bounce` the window has 51 entries and
    the verdict cites 1 bounce in last 51. -/
theorem qualification_bounce_strict_witness :
    (checkQualification c7Stats DnsOutcome.noDomain).allowed = false ∧
    bounceReason 1 51 ∈ (checkQualification c7Stats DnsOutcome.noDomain).reasons := by
  have h := qualification_bounce_strict c7Stats DnsOutcome.noDomain (by decide)
  refine ⟨h.1, ?_⟩
  have he : bounceReason (bounceCount c7Stats) (relevantHistory c7Stats).length
      = bounceReason 1 51 := by decide
  exact he ▸ h.2

/-- A record with exactly two test sends, both `spam`. -/
def c5Stats : SenderStats :=
  { initSenderStats with
      testSends := [{ ts := 0, result := TestResult.spam },
                    { ts := 1, result := TestResult.spam }] }

/-- **C5, counterexample.** On a record with two `spam` test sends both the
    sufficiency check and the spec's inbox-placement check fail (rate 0% <
    95%), yet the verdict carries exactly one reason — the insufficiency
    text — so the failing placement check contributes no reason of its own:
    evaluation does short-circuit between those two checks. -/
theorem qualification_not_independent_cex :
    testRate c5Stats < 95 ∧
    c5Stats.testSends.length < 5 ∧
    (checkQualification c5Stats DnsOutcome.noDomain).reasons = [insufficientReason 2] ∧
    (checkQualification c5Stats DnsOutcome.noDomain).reasons.length = 1 := by
  refine ⟨?_, by decide, by decide, by decide⟩
  have hf : (c5Stats.testSends.filter fun t => t.result == TestResult.primary).length = 0 := by
    decide
  have hl : c5Stats.testSends.length = 2 := by decide
  simp only [testRate, hf, hl]
  norm_num

/-- **C5, amended.** The three check groups — domain health, the test-send
    group, and the bounce check — are evaluated independently, each failing
    group clears `allowed` and appends its reasons, and reasons accumulate
    across groups without short-circuiting; but within the test-send group the
    placement-rate check runs only when at least 5 test sends exist, and a
    failed domain-health lookup appends a reason without clearing `allowed`. -/
theorem qualification_group_accumulation (s : SenderStats) (dns : DnsOutcome) :
    (checkQualification s dns).allowed
        = ((dnsPart dns).1 && ((testPart s).1 && (bouncePart s).1)) ∧
    (checkQualification s dns).reasons
        = (dnsPart dns).2 ++ ((testPart s).2 ++ (bouncePart s).2) :=
  checkQualification_decomp s dns

/-! ## Reputation store invariants (C8, C9) -/

theorem counterStep_history (s : SenderStats) (t : EventType) :
    (counterStep s t).history = s.history := rfl

theorem counterStep_testSends (s : SenderStats) (t : EventType) :
    (counterStep s t).testSends = s.testSends := rfl

theorem counterStep_warmup (s : SenderStats) (t : EventType) :
    (counterStep s t).warmupStatus = s.warmupStatus := rfl

theorem warmupStep_history (s : SenderStats) (e : Ev) :
    (warmupStep s e).history = s.history := by
  unfold warmupStep
  split <;> rfl

theorem warmupStep_testSends (s : SenderStats) (e : Ev) :
    (warmupStep s e).testSends = s.testSends := by
  unfold warmupStep
  split <;> rfl

theorem warmupStep_counters (s : SenderStats) (e : Ev) :
    (warmupStep s e).totalSent = s.totalSent ∧
    (warmupStep s e).totalBounces = s.totalBounces ∧
    (warmupStep s e).totalErrors = s.totalErrors := by
  unfold warmupStep
  split <;> exact ⟨rfl, rfl, rfl⟩

theorem testStep_history (s : SenderStats) (e : Ev) :
    (testStep s e).history = s.history := by
  unfold testStep
  split <;> rfl

theorem testStep_warmup (s : SenderStats) (e : Ev) :
    (testStep s e).warmupStatus = s.warmupStatus := by
  unfold testStep
  split <;> rfl

theorem testStep_counters (s : SenderStats) (e : Ev) :
    (testStep s e).totalSent = s.totalSent ∧
    (testStep s e).totalBounces = s.totalBounces ∧
    (testStep s e).totalErrors = s.totalErrors := by
  unfold testStep
  split <;> exact ⟨rfl, rfl, rfl⟩

theorem histStep_testSends (s : SenderStats) (e : Ev) :
    (histStep s e).testSends = s.testSends := rfl

theorem histStep_warmup (s : SenderStats) (e : Ev) :
    (histStep s e).warmupStatus = s.warmupStatus := rfl

theorem histStep_counters (s : SenderStats) (e : Ev) :
    (histStep s e).totalSent = s.totalSent ∧
    (histStep s e).totalBounces = s.totalBounces ∧
    (histStep s e).totalErrors = s.totalErrors := ⟨rfl, rfl, rfl⟩

/-- The history after one event: push to the back, and when the pushed list
    exceeds 1000 drop the front (oldest) entry. -/
theorem logEmailEvent_history_eq (s : SenderStats) (e : Ev) :
    (logEmailEvent s e).history =
      if (s.history ++ [histEntryOf e]).length > 1000 then
        (s.history ++ [histEntryOf e]).tail
      else s.history ++ [histEntryOf e] := by
  show (histStep _ e).history = _
  unfold histStep
  rw [testStep_history, warmupStep_history, counterStep_history]

/-- The test-send log after one event: untouched unless the event is a test
    event; then push to the back, and when the pushed list exceeds 50 drop
    the front (oldest) entry. -/
theorem logEmailEvent_testSends_eq (s : SenderStats) (e : Ev) :
    (logEmailEvent s e).testSends =
      if isTestEv e then
        (if (s.testSends ++ [testEntryOf e]).length > 50 then
           (s.testSends ++ [testEntryOf e]).tail
         else s.testSends ++ [testEntryOf e])
      else s.testSends := by
  have hts : ∀ s1 : SenderStats, (testStep s1 e).testSends =
      if isTestEv e then
        (if (s1.testSends ++ [testEntryOf e]).length > 50 then
           (s1.testSends ++ [testEntryOf e]).tail
         else s1.testSends ++ [testEntryOf e])
      else s1.testSends := by
    intro s1
    unfold testStep
    split <;> rfl
  show (histStep (testStep (warmupStep (counterStep s e.type) e) e) e).testSends = _
  rw [histStep_testSends, hts, warmupStep_testSends, counterStep_testSends]

theorem logEmailEvent_history_le (s : SenderStats) (e : Ev)
    (h : s.history.length ≤ 1000) :
    (logEmailEvent s e).history.length ≤ 1000 := by
  rw [logEmailEvent_history_eq]
  by_cases hc : (s.history ++ [histEntryOf e]).length > 1000
  · rw [if_pos hc]
    simp only [List.length_tail, List.length_append, List.length_singleton] at *
    omega
  · rw [if_neg hc]
    simp only [List.length_append, List.length_singleton] at *
    omega

theorem logEmailEvent_testSends_le (s : SenderStats) (e : Ev)
    (h : s.testSends.length ≤ 50) :
    (logEmailEvent s e).testSends.length ≤ 50 := by
  rw [logEmailEvent_testSends_eq]
  by_cases ht : isTestEv e
  · rw [if_pos ht]
    by_cases hc : (s.testSends ++ [testEntryOf e]).length > 50
    · rw [if_pos hc]
      simp only [List.length_tail, List.length_append, List.length_singleton] at *
      omega
    · rw [if_neg hc]
      simp only [List.length_append, List.length_singleton] at *
      omega
  · rw [if_neg ht]
    exact h

theorem replay_bounds (es : List Ev) :
    ∀ s : SenderStats, s.history.length ≤ 1000 → s.testSends.length ≤ 50 →
      (es.foldl logEmailEvent s).history.length ≤ 1000 ∧
      (es.foldl logEmailEvent s).testSends.length ≤ 50 := by
  induction es with
  | nil => exact fun s h1 h2 => ⟨h1, h2⟩
  | cons e es ih =>
    intro s h1 h2
    exact ih (logEmailEvent s e) (logEmailEvent_history_le s e h1)
      (logEmailEvent_testSends_le s e h2)

/-- **C8.** After any sequence of events replayed from the initial record, the
    history holds at most 1000 entries and the test-send log at most 50; at
    every single step the three counters never decrease, the new history is
    the old one with the event pushed on the back and — exactly when the
    capacity would be exceeded — the front (oldest) entry evicted, and
    likewise for the test-send log on test events. -/
theorem reputation_bounds_fifo_mono (es : List Ev) (s : SenderStats) (e : Ev) :
    (replay es).history.length ≤ 1000 ∧
    (replay es).testSends.length ≤ 50 ∧
    s.totalSent ≤ (logEmailEvent s e).totalSent ∧
    s.totalBounces ≤ (logEmailEvent s e).totalBounces ∧
    s.totalErrors ≤ (logEmailEvent s e).totalErrors ∧
    ((logEmailEvent s e).history =
      if (s.history ++ [histEntryOf e]).length > 1000 then
        (s.history ++ [histEntryOf e]).tail
      else s.history ++ [histEntryOf e]) ∧
    ((logEmailEvent s e).testSends =
      if isTestEv e then
        (if (s.testSends ++ [testEntryOf e]).length > 50 then
           (s.testSends ++ [testEntryOf e]).tail
         else s.testSends ++ [testEntryOf e])
      else s.testSends) := by
  obtain ⟨hh, ht⟩ := replay_bounds es initSenderStats (by decide) (by decide)
  have hsent : (logEmailEvent s e).totalSent = (counterStep s e.type).totalSent := by
    show (histStep (testStep (warmupStep _ e) e) e).totalSent = _
    rw [(histStep_counters _ e).1, (testStep_counters _ e).1, (warmupStep_counters _ e).1]
  have hbounce : (logEmailEvent s e).totalBounces = (counterStep s e.type).totalBounces := by
    show (histStep (testStep (warmupStep _ e) e) e).totalBounces = _
    rw [(histStep_counters _ e).2.1, (testStep_counters _ e).2.1,
      (warmupStep_counters _ e).2.1]
  have herr : (logEmailEvent s e).totalErrors = (counterStep s e.type).totalErrors := by
    show (histStep (testStep (warmupStep _ e) e) e).totalErrors = _
    rw [(histStep_counters _ e).2.2, (testStep_counters _ e).2.2,
      (warmupStep_counters _ e).2.2]
  refine ⟨hh, ht, ?_, ?_, ?_, logEmailEvent_history_eq s e, logEmailEvent_testSends_eq s e⟩
  · rw [hsent]
    simp only [counterStep]
    split <;> omega
  · rw [hbounce]
    simp only [counterStep]
    split <;> omega
  · rw [herr]
    simp only [counterStep]
    split <;> omega

/-- **C9.** On a `sent` event, if the record's `lastSentDate` differs from
    today's date the daily counter ends at exactly 1 (reset to 0, then
    incremented); if it matches, the daily counter strictly increments. -/
theorem dailyCount_reset_to_one (s : SenderStats) (e : Ev)
    (ht : e.type = EventType.sent) :
    (s.warmupStatus.lastSentDate ≠ some e.today →
      (logEmailEvent s e).warmupStatus.dailyCount = 1) ∧
    (s.warmupStatus.lastSentDate = some e.today →
      (logEmailEvent s e).warmupStatus.dailyCount = s.warmupStatus.dailyCount + 1) := by
  have hw : (logEmailEvent s e).warmupStatus = (warmupStep (counterStep s e.type) e).warmupStatus := by
    show (histStep (testStep _ e) e).warmupStatus = _
    rw [histStep_warmup, testStep_warmup]
  constructor
  · intro hne
    rw [hw]
    unfold warmupStep
    rw [counterStep_warmup]
    simp [ht, bne_iff_ne, hne]
  · intro heq
    rw [hw]
    unfold warmupStep
    rw [counterStep_warmup]
    simp [ht, heq]

/-- A `sent` event on 2026-02-03. -/
def evSentA : Ev := { type := EventType.sent, today := "2026-02-03", now := 100 }

/-- C9 witness: from the fresh record (`lastSentDate = null`), the first
    `sent` event of the day yields `dailyCount = 1`, and a second `sent`
    event on the same date yields 2. -/
theorem dailyCount_reset_to_one_witness :
    (logEmailEvent initSenderStats evSentA).warmupStatus.dailyCount = 1 ∧
    (logEmailEvent (logEmailEvent initSenderStats evSentA) evSentA).warmupStatus.dailyCount = 2 := by
  have h1 := (dailyCount_reset_to_one initSenderStats evSentA rfl).1 (by decide)
  refine ⟨h1, ?_⟩
  have h2 := (dailyCount_reset_to_one (logEmailEvent initSenderStats evSentA) evSentA rfl).2
    (by decide)
  rw [h2]
  have h3 : (logEmailEvent initSenderStats evSentA).warmupStatus.dailyCount = 1 := h1
  omega

/-! ## Job store and claim loop (src/emailService.js)

`processDueScheduledEmails` opens one transaction and runs
`SELECT ... WHERE status = 'pending' AND scheduled_time <= NOW()
ORDER BY scheduled_time ASC LIMIT $1 FOR UPDATE SKIP LOCKED`.
Row-level locks serialize concurrent claimers: each claimer's select-and-lock
step is modelled as an atomic operation against the committed table plus a
shared set of row locks held by in-flight transactions; a locked row is
skipped, an unlocked selected row becomes locked. -/

/-- The `status` column. -/
inductive JobStatus
  | pending
  | processing
  | sent
  | error
  deriving DecidableEq, Repr

/-- One row of the `email_jobs` table (recipients/subject/content/attachments
    are opaque to the claim logic and omitted). -/
structure Job where
  id : Nat
  senderId : Nat
  scheduledTime : Int
  status : JobStatus
  attempts : Nat
  lastAttemptAt : Option Int
  deriving DecidableEq, Repr

/-- The WHERE clause: `status = 'pending' AND scheduled_time <= NOW()`. -/
def isDueJob (now : Int) (j : Job) : Bool :=
  j.status == JobStatus.pending && decide (j.scheduledTime ≤ now)

/-- The due set at claim time. -/
def dueJobs (db : List Job) (now : Int) : List Job :=
  db.filter (isDueJob now)

/-- `ORDER BY scheduled_time ASC`. -/
def jobLE (a b : Job) : Prop :=
  a.scheduledTime ≤ b.scheduledTime

instance : DecidableRel jobLE := fun a b => Int.decLe a.scheduledTime b.scheduledTime

instance : IsTotal Job jobLE := ⟨fun a b => Int.le_total a.scheduledTime b.scheduledTime⟩

instance : IsTrans Job jobLE := ⟨fun _ _ _ h1 h2 => le_trans h1 h2⟩

/-- One atomic claiming SELECT: among due rows not locked by another
    transaction, in `scheduledTime` ascending order, take at most `limit`. -/
def claimSelect (db : List Job) (locked : List Nat) (now : Int) (limit : Nat) : List Job :=
  (List.insertionSort jobLE ((dueJobs db now).filter fun j => !locked.contains j.id)).take limit

/-- Any number of concurrent claimers, serialized by the row locks: each
    claimer in turn selects against the committed table and the locks left by
    the previous in-flight claimers, then adds its rows to the lock set. -/
def claimAll (db : List Job) (now : Int) : List Nat → List Nat → List (List Job)
  | [], _ => []
  | l :: ls, locked =>
    let sel := claimSelect db locked now l
    sel :: claimAll db now ls (locked ++ sel.map Job.id)

/-- The `UPDATE email_jobs SET status = 'processing'` applied to the claimed
    rows. -/
def markProcessing (db : List Job) (ids : List Nat) : List Job :=
  db.map fun j =>
    if ids.contains j.id then { j with status := JobStatus.processing } else j

theorem mem_claimSelect {db : List Job} {locked : List Nat} {now : Int} {limit : Nat}
    {j : Job} (h : j ∈ claimSelect db locked now limit) :
    j ∈ dueJobs db now ∧ j.id ∉ locked := by
  unfold claimSelect at h
  have h1 := List.take_subset _ _ h
  have h2 := (List.perm_insertionSort jobLE _).subset h1
  have h3 := List.mem_filter.mp h2
  refine ⟨h3.1, ?_⟩
  simpa using h3.2

theorem claimAll_avoid (db : List Job) (now : Int) :
    ∀ (limits locked : List Nat), ∀ c ∈ claimAll db now limits locked,
      ∀ j ∈ c, j.id ∉ locked := by
  intro limits
  induction limits with
  | nil =>
    intro locked c hc
    simp [claimAll] at hc
  | cons l ls ih =>
    intro locked c hc j hj
    simp only [claimAll, List.mem_cons] at hc
    rcases hc with rfl | hc
    · exact (mem_claimSelect hj).2
    · intro hmem
      exact ih _ c hc j hj (List.mem_append_left _ hmem)

theorem claimAll_subset_due (db : List Job) (now : Int) :
    ∀ (limits locked : List Nat), ∀ c ∈ claimAll db now limits locked,
      ∀ j ∈ c, j ∈ dueJobs db now := by
  intro limits
  induction limits with
  | nil =>
    intro locked c hc
    simp [claimAll] at hc
  | cons l ls ih =>
    intro locked c hc j hj
    simp only [claimAll, List.mem_cons] at hc
    rcases hc with rfl | hc
    · exact (mem_claimSelect hj).1
    · exact ih _ c hc j hj

theorem claimAll_sorted (db : List Job) (now : Int) :
    ∀ (limits locked : List Nat), ∀ c ∈ claimAll db now limits locked,
      List.Sorted jobLE c := by
  intro limits
  induction limits with
  | nil =>
    intro locked c hc
    simp [claimAll] at hc
  | cons l ls ih =>
    intro locked c hc
    simp only [claimAll, List.mem_cons] at hc
    rcases hc with rfl | hc
    · exact List.Pairwise.sublist (List.take_sublist _ _)
        (List.sorted_insertionSort jobLE _)
    · exact ih _ c hc

theorem claimAll_length_le (db : List Job) (now : Int) :
    ∀ (limits locked : List Nat),
      ∀ p ∈ (claimAll db now limits locked).zip limits, p.1.length ≤ p.2 := by
  intro limits
  induction limits with
  | nil =>
    intro locked p hp
    simp [claimAll] at hp
  | cons l ls ih =>
    intro locked p hp
    simp only [claimAll, List.zip_cons_cons, List.mem_cons] at hp
    rcases hp with rfl | hp
    · exact List.length_take_le _ _
    · exact ih _ p hp

theorem claimAll_pairwise (db : List Job) (now : Int) :
    ∀ (limits locked : List Nat),
      List.Pairwise (fun c d => ∀ i, i ∈ c.map Job.id → i ∉ d.map Job.id)
        (claimAll db now limits locked) := by
  intro limits
  induction limits with
  | nil =>
    intro locked
    simp [claimAll]
  | cons l ls ih =>
    intro locked
    simp only [claimAll]
    refine List.Pairwise.cons ?_ (ih _)
    intro d hd i hi hid
    obtain ⟨j, hj, rfl⟩ := List.mem_map.mp hid
    exact claimAll_avoid db now ls _ d hd j hj (List.mem_append_right _ hi)

theorem claimSelect_all (db : List Job) (now : Int) (limit : Nat)
    (h : (dueJobs db now).length ≤ limit) :
    claimSelect db [] now limit = List.insertionSort jobLE (dueJobs db now) := by
  unfold claimSelect
  have hf : ((dueJobs db now).filter fun j => !List.contains [] j.id) = dueJobs db now := by
    apply List.filter_eq_self.mpr
    intro j _
    rfl
  rw [hf]
  apply List.take_of_length_le
  rw [(List.perm_insertionSort jobLE _).length_eq]
  exact h

theorem claimSelect_exhausted (db : List Job) (now : Int) (limit : Nat)
    (locked : List Nat) (hsub : ∀ j ∈ dueJobs db now, j.id ∈ locked) :
    claimSelect db locked now limit = [] := by
  unfold claimSelect
  have hf : ((dueJobs db now).filter fun j => !locked.contains j.id) = [] := by
    apply List.filter_eq_nil_iff.mpr
    intro j hj
    simpa using hsub j hj
  rw [hf]
  simp

theorem claimAll_exhausted (db : List Job) (now : Int) :
    ∀ (ls locked : List Nat), (∀ j ∈ dueJobs db now, j.id ∈ locked) →
      ∀ c ∈ claimAll db now ls locked, c = [] := by
  intro ls
  induction ls with
  | nil =>
    intro locked _ c hc
    simp [claimAll] at hc
  | cons l ls ih =>
    intro locked h c hc
    simp only [claimAll, List.mem_cons] at hc
    rcases hc with rfl | hc
    · exact claimSelect_exhausted db now l locked h
    · exact ih _ (fun j hj => List.mem_append_left _ (h j hj)) c hc

theorem claimAll_union (db : List Job) (now : Int) (limits : List Nat)
    (hne : limits ≠ []) (hbig : ∀ l ∈ limits, (dueJobs db now).length ≤ l) :
    (((claimAll db now limits []).flatten).map Job.id).Perm
      ((dueJobs db now).map Job.id) := by
  cases limits with
  | nil => exact absurd rfl hne
  | cons l ls =>
    simp only [claimAll]
    rw [claimSelect_all db now l (hbig l (List.mem_cons_self l ls))]
    have hsub : ∀ j ∈ dueJobs db now,
        j.id ∈ ([] : List Nat) ++ (List.insertionSort jobLE (dueJobs db now)).map Job.id := by
      intro j hj
      apply List.mem_append_right
      exact List.mem_map_of_mem _ ((List.perm_insertionSort jobLE _).mem_iff.mpr hj)
    have hrest : (claimAll db now ls
        ([] ++ (List.insertionSort jobLE (dueJobs db now)).map Job.id)).flatten = [] :=
      List.flatten_eq_nil_iff.mpr
        (claimAll_exhausted db now ls _ hsub)
    rw [List.flatten_cons, hrest, List.append_nil]
    exact (List.perm_insertionSort jobLE _).map Job.id

/-- **C1.** Concurrent claim calls, serialized by the row locks of
    `FOR UPDATE SKIP LOCKED`: every claimed row is a due row; each claimed
    batch is in `scheduledTime` ascending order and holds at most the
    caller's limit; no two callers ever receive the same job id; when every
    caller uses a limit at least the size of the due set (and there is at
    least one caller), the union of the claimed batches is exactly the due
    set; and the claimed rows are flipped to `processing`. -/
theorem claimDue_exclusive_exact (db : List Job) (now : Int) (limits : List Nat) :
    (∀ c ∈ claimAll db now limits [], ∀ j ∈ c, j ∈ dueJobs db now) ∧
    (∀ c ∈ claimAll db now limits [], List.Sorted jobLE c) ∧
    (∀ p ∈ (claimAll db now limits []).zip limits, p.1.length ≤ p.2) ∧
    List.Pairwise (fun c d => ∀ i, i ∈ c.map Job.id → i ∉ d.map Job.id)
      (claimAll db now limits []) ∧
    ((limits ≠ [] ∧ ∀ l ∈ limits, (dueJobs db now).length ≤ l) →
      (((claimAll db now limits []).flatten).map Job.id).Perm
        ((dueJobs db now).map Job.id)) ∧
    (∀ j ∈ markProcessing db (((claimAll db now limits []).flatten).map Job.id),
      j.id ∈ ((claimAll db now limits []).flatten).map Job.id →
        j.status = JobStatus.processing) := by
  refine ⟨fun c hc => claimAll_subset_due db now limits [] c hc,
    fun c hc => claimAll_sorted db now limits [] c hc,
    fun p hp => claimAll_length_le db now limits [] p hp,
    claimAll_pairwise db now limits [],
    fun h => claimAll_union db now limits h.1 h.2,
    ?_⟩
  intro j hj hid
  unfold markProcessing at hj
  obtain ⟨j0, hj0, rfl⟩ := List.mem_map.mp hj
  by_cases hc : (((claimAll db now limits []).flatten).map Job.id).contains j0.id
  · rw [if_pos hc]
  · rw [if_neg hc]
    rw [if_neg hc] at hid
    exact absurd (List.elem_iff.mpr hid) hc

/-- Three rows: two due (`scheduledTime` 5 and 3) and one already sent. -/
def jobA : Job :=
  { id := 1, senderId := 1, scheduledTime := 5, status := JobStatus.pending,
    attempts := 0, lastAttemptAt := none }

def jobB : Job :=
  { id := 2, senderId := 1, scheduledTime := 3, status := JobStatus.pending,
    attempts := 0, lastAttemptAt := none }

def jobC : Job :=
  { id := 3, senderId := 2, scheduledTime := 8, status := JobStatus.sent,
    attempts := 1, lastAttemptAt := some 9 }

def dbW : List Job := [jobA, jobB, jobC]

/-- C1 witness: two concurrent claimers with limit 5 over the two due jobs of
    `dbW` at time 6: non-overlapping batches whose union is exactly the due
    set. -/
theorem claimDue_exclusive_exact_witness :
    ((((claimAll dbW 6 [5, 5] []).flatten).map Job.id).Perm
      ((dueJobs dbW 6).map Job.id)) ∧
    List.Pairwise (fun c d => ∀ i, i ∈ c.map Job.id → i ∉ d.map Job.id)
      (claimAll dbW 6 [5, 5] []) := by
  have h := claimDue_exclusive_exact dbW 6 [5, 5]
  exact ⟨h.2.2.2.2.1 ⟨by decide, by decide⟩, h.2.2.2.1⟩

/-! ## Batch processing transaction (C2)

`processDueScheduledEmails` wraps the claiming SELECT **and every per-job
status UPDATE in one transaction** (`BEGIN` ... loop ... `COMMIT`, with
`ROLLBACK` in the catch). Per-job delivery failures are caught inside the
loop and recorded as `error`; a storage error thrown by an UPDATE escapes
the loop and rolls the whole transaction back. Delivery outcomes are the
`deliver` oracle; a storage fault is injected as the id of the row whose
`processing` UPDATE throws (`updateFailsAt`). -/

/-- `UPDATE email_jobs SET status = $st WHERE id = $i` on the in-transaction
    working copy. -/
def setStatus (db : List Job) (i : Nat) (st : JobStatus) : List Job :=
  db.map fun j => if j.id == i then { j with status := st } else j

/-- `UPDATE ... SET status = $st, last_attempt_at = NOW(),
    attempts = attempts + 1 WHERE id = $i`. -/
def terminalWrite (db : List Job) (i : Nat) (st : JobStatus) (now : Int) : List Job :=
  db.map fun j =>
    if j.id == i then
      { j with status := st, lastAttemptAt := some now, attempts := j.attempts + 1 }
    else j

/-- The `for (const row of rows)` loop: set `processing`, attempt delivery,
    record the terminal status; `none` models an escaping storage error. -/
def runBatch (deliver : Nat → Bool) (updateFailsAt : Option Nat) (now : Int) :
    List Job → List Job → Option (List Job)
  | [], working => some working
  | row :: rest, working =>
    if updateFailsAt == some row.id then none
    else
      runBatch deliver updateFailsAt now rest
        (terminalWrite (setStatus working row.id JobStatus.processing) row.id
          (if deliver row.id then JobStatus.sent else JobStatus.error) now)

/-- `processDueScheduledEmails(limit)`: claim inside the transaction, run the
    loop, `COMMIT` the working copy — or `ROLLBACK` to the original table. -/
def processDueScheduledEmails (db : List Job) (now : Int) (limit : Nat)
    (deliver : Nat → Bool) (updateFailsAt : Option Nat) : List Job :=
  match runBatch deliver updateFailsAt now (claimSelect db [] now limit) db with
  | some w => w
  | none => db

/-- Modelled from the spec: the claimed behaviour in which each job's
    terminal status is written **in its own transaction**, so a storage
    error on one job's write leaves every other job's committed status
    intact. Not implemented by the source (which uses one transaction for
    the whole batch); defined here only to compare against
    `processDueScheduledEmails`. -/
def processDuePerJobTx (db : List Job) (now : Int) (limit : Nat)
    (deliver : Nat → Bool) (updateFailsAt : Option Nat) : List Job :=
  (claimSelect db [] now limit).foldl
    (fun acc row =>
      if updateFailsAt == some row.id then acc
      else
        terminalWrite (setStatus acc row.id JobStatus.processing) row.id
          (if deliver row.id then JobStatus.sent else JobStatus.error) now)
    db

/-- Two due rows. -/
def jobD1 : Job :=
  { id := 1, senderId := 1, scheduledTime := 0, status := JobStatus.pending,
    attempts := 0, lastAttemptAt := none }

def jobD2 : Job :=
  { id := 2, senderId := 1, scheduledTime := 1, status := JobStatus.pending,
    attempts := 0, lastAttemptAt := none }

def dbC2 : List Job := [jobD1, jobD2]

/-- **C2, counterexample.** Job 1 is delivered and its `sent` status written,
    then a storage error occurs while updating job 2: the source's single
    transaction rolls back job 1's already-written `sent` status (both rows
    revert to `pending`), whereas under the claimed per-job-transaction
    semantics job 1 would stay `sent`. The terminal statuses are not written
    in their own transactions. -/
theorem processDue_not_per_job_tx :
    ((processDueScheduledEmails dbC2 10 20 (fun _ => true) (some 2)).map Job.status
      = [JobStatus.pending, JobStatus.pending]) ∧
    ((processDuePerJobTx dbC2 10 20 (fun _ => true) (some 2)).map Job.status
      = [JobStatus.sent, JobStatus.pending]) := by
  constructor <;> decide

/-- The per-job terminal transformation actually committed for claimed rows. -/
def terminalOf (deliver : Nat → Bool) (now : Int) (j : Job) : Job :=
  { j with
    status := if deliver j.id then JobStatus.sent else JobStatus.error
    lastAttemptAt := some now
    attempts := j.attempts + 1 }

theorem runBatch_none_fault (deliver : Nat → Bool) (now : Int) :
    ∀ (rows working : List Job),
      runBatch deliver none now rows working =
        some (rows.foldl
          (fun acc row =>
            terminalWrite (setStatus acc row.id JobStatus.processing) row.id
              (if deliver row.id then JobStatus.sent else JobStatus.error) now)
          working) := by
  intro rows
  induction rows with
  | nil => intro working; rfl
  | cons row rest ih =>
    intro working
    simp only [runBatch, List.foldl_cons]
    rw [if_neg (by simp)]
    exact ih _

theorem batchStep_map (deliver : Nat → Bool) (now : Int) (db : List Job)
    (done : List Nat) (row : Job) (hrow : row.id ∉ done) :
    terminalWrite
        (setStatus (db.map fun j => if done.contains j.id then terminalOf deliver now j else j)
          row.id JobStatus.processing)
        row.id (if deliver row.id then JobStatus.sent else JobStatus.error) now
      = db.map fun j =>
          if (done ++ [row.id]).contains j.id then terminalOf deliver now j else j := by
  unfold setStatus terminalWrite
  rw [List.map_map, List.map_map]
  apply List.map_congr_left
  intro j _
  simp only [Function.comp]
  by_cases hr : j.id = row.id
  · simp [hrow, hr, terminalOf]
  · by_cases hd : j.id ∈ done
    · simp [hd, hr, terminalOf]
    · simp [hd, hr]

theorem batch_fold_map (deliver : Nat → Bool) (now : Int) (db : List Job) :
    ∀ (rows : List Job) (done : List Nat),
      (rows.map Job.id).Nodup → (∀ r ∈ rows, r.id ∉ done) →
      rows.foldl
          (fun acc row =>
            terminalWrite (setStatus acc row.id JobStatus.processing) row.id
              (if deliver row.id then JobStatus.sent else JobStatus.error) now)
          (db.map fun j => if done.contains j.id then terminalOf deliver now j else j)
        = db.map fun j =>
            if (done ++ rows.map Job.id).contains j.id then terminalOf deliver now j
            else j := by
  intro rows
  induction rows with
  | nil =>
    intro done _ _
    simp
  | cons row rest ih =>
    intro done hnd hdone
    simp only [List.foldl_cons]
    rw [batchStep_map deliver now db done row (hdone row (List.mem_cons_self row rest))]
    have hnd' : (rest.map Job.id).Nodup := by
      simpa using (List.nodup_cons.mp (by simpa using hnd)).2
    have hdone' : ∀ r ∈ rest, r.id ∉ done ++ [row.id] := by
      intro r hr
      simp only [List.mem_append, List.mem_singleton]
      push_neg
      refine ⟨hdone r (List.mem_cons_of_mem row hr), ?_⟩
      intro he
      have hni : row.id ∉ rest.map Job.id := (List.nodup_cons.mp (by simpa using hnd)).1
      exact hni (he ▸ List.mem_map_of_mem Job.id hr)
    rw [ih (done ++ [row.id]) hnd' hdone']
    congr 1
    funext j
    rw [List.append_assoc]
    rfl

theorem claimSelect_nodup_ids (db : List Job) (now : Int) (limit : Nat)
    (hnd : (db.map Job.id).Nodup) :
    ((claimSelect db [] now limit).map Job.id).Nodup := by
  unfold claimSelect
  apply List.Nodup.sublist (List.Sublist.map Job.id (List.take_sublist _ _))
  apply List.Perm.nodup ((List.perm_insertionSort jobLE _).map Job.id).symm
  apply List.Nodup.sublist (List.Sublist.map Job.id (List.filter_sublist _))
  exact List.Nodup.sublist (List.Sublist.map Job.id (List.filter_sublist _)) hnd

/-- **C2, amended.** All terminal statuses of a claimed batch are written
    inside the single claiming transaction. Per-job delivery failures are
    caught inside the loop, so with no storage error the transaction commits
    and every claimed row's terminal status is `sent` or `error` according to
    **its own** delivery outcome only — one job's delivery failure never
    changes another job's `sent` status; unclaimed rows are untouched. (A
    storage error, by contrast, rolls back the entire batch — see the
    counterexample.) -/
theorem processDue_delivery_isolation (db : List Job) (now : Int) (limit : Nat)
    (deliver : Nat → Bool) (hnd : (db.map Job.id).Nodup) :
    processDueScheduledEmails db now limit deliver none
      = db.map fun j =>
          if ((claimSelect db [] now limit).map Job.id).contains j.id then
            terminalOf deliver now j
          else j := by
  unfold processDueScheduledEmails
  rw [runBatch_none_fault]
  have h0 : db = db.map fun j =>
      if (([] : List Nat).contains j.id) then terminalOf deliver now j else j := by
    simp
  calc (claimSelect db [] now limit).foldl _ db
      = (claimSelect db [] now limit).foldl
          (fun acc row =>
            terminalWrite (setStatus acc row.id JobStatus.processing) row.id
              (if deliver row.id then JobStatus.sent else JobStatus.error) now)
          (db.map fun j =>
            if (([] : List Nat).contains j.id) then terminalOf deliver now j else j) := by
        rw [← h0]
    _ = db.map fun j =>
          if (([] : List Nat) ++ (claimSelect db [] now limit).map Job.id).contains j.id then
            terminalOf deliver now j
          else j :=
        batch_fold_map deliver now db (claimSelect db [] now limit) []
          (claimSelect_nodup_ids db now limit hnd) (by simp)
    _ = db.map fun j =>
          if ((claimSelect db [] now limit).map Job.id).contains j.id then
            terminalOf deliver now j
          else j := by
        rw [List.nil_append]

/-- Delivery succeeds for job 1, fails for job 2. -/
def deliverW : Nat → Bool := fun n => n == 1

/-- C2 amended witness: with job 1 delivered and job 2 failing delivery, the
    batch commits job 1 as `sent` and job 2 as `error` — the delivery failure
    does not roll back the neighbouring `sent`. -/
theorem processDue_delivery_isolation_witness :
    (processDueScheduledEmails dbC2 10 20 deliverW none
      = dbC2.map fun j =>
          if ((claimSelect dbC2 [] 10 20).map Job.id).contains j.id then
            terminalOf deliverW 10 j
          else j) ∧
    (processDueScheduledEmails dbC2 10 20 deliverW none).map Job.status
      = [JobStatus.sent, JobStatus.error] := by
  refine ⟨processDue_delivery_isolation dbC2 10 20 deliverW (by decide), by decide⟩

/-! ## Follow-up due-scan and dispatch queue
(src/schedulerService.js and src/unnamed/part_002)

The repository holds two variants of the scheduler. The hourly scan in
`src/schedulerService.js` pushes every due campaign onto `sendQueue`
unconditionally; the `checkPendingFollowUps` scan of the variant in
`src/unnamed/part_002` skips campaigns whose id is already queued. -/

/-- The campaign fields read by the scheduler. `hasFollowUp` is the
    truthiness of `c.followUp`; `followUpScheduledAt` is `none` for a
    missing/invalid date (an invalid `Date` compares false in the source). -/
structure Campaign where
  id : Nat
  hasFollowUp : Bool
  followUpStatus : Option String
  followUpScheduledAt : Option Int
  deriving DecidableEq, Repr

/-- The due filter of `checkPendingFollowUps` (src/unnamed/part_002):
    `c.followUp && c.followUpStatus === 'pending' &&
    new Date(c.followUpScheduledAt) <= now`. -/
def isDueFollowUp (now : Int) (c : Campaign) : Bool :=
  c.hasFollowUp && (c.followUpStatus == some "pending") &&
    (match c.followUpScheduledAt with
     | some t => decide (t ≤ now)
     | none => false)

/-- The due filter of the hourly scan in `src/schedulerService.js` (it also
    rejects a missing `followUpScheduledAt`, but does not look at
    `c.followUp`). -/
def isDueFollowUpHourly (now : Int) (c : Campaign) : Bool :=
  (c.followUpStatus == some "pending") &&
    (match c.followUpScheduledAt with
     | some t => decide (t ≤ now)
     | none => false)

/-- One run of `checkPendingFollowUps` (src/unnamed/part_002): append each due
    campaign's id, skipping it when the id is already in the queue. -/
def checkPendingFollowUps (queue : List Nat) (campaigns : List Campaign)
    (now : Int) : List Nat :=
  (campaigns.filter (isDueFollowUp now)).foldl
    (fun q c => if q.contains c.id then q else q ++ [c.id]) queue

/-- One run of the hourly scan in `src/schedulerService.js`:
    `pending.forEach(c => sendQueue.push({ id: c.id }))` — no dedup check. -/
def hourlyFollowUpScan (queue : List Nat) (campaigns : List Campaign)
    (now : Int) : List Nat :=
  queue ++ (campaigns.filter (isDueFollowUpHourly now)).map Campaign.id

/-- A campaign with a due, still-pending follow-up. -/
def campP : Campaign :=
  { id := 7, hasFollowUp := true, followUpStatus := some "pending",
    followUpScheduledAt := some 0 }

/-- **C3, counterexample.** Two successive runs of the current
    (`src/schedulerService.js`) hourly scan over a campaign that stays
    `pending` (it is still waiting in the queue): the second run appends the
    id again, so the queue holds two tasks with the same campaign id. -/
theorem hourlyScan_duplicates :
    hourlyFollowUpScan (hourlyFollowUpScan [] [campP] 10) [campP] 20 = [7, 7] ∧
    ¬ (hourlyFollowUpScan (hourlyFollowUpScan [] [campP] 10) [campP] 20).Nodup := by
  constructor <;> decide

theorem followUpFold_mem (i : Nat) :
    ∀ (pend : List Campaign) (queue : List Nat),
      (i ∈ pend.foldl (fun q c => if q.contains c.id then q else q ++ [c.id]) queue ↔
        i ∈ queue ∨ i ∈ pend.map Campaign.id) := by
  intro pend
  induction pend with
  | nil =>
    intro queue
    simp
  | cons c cs ih =>
    intro queue
    simp only [List.foldl_cons, List.map_cons, List.mem_cons]
    by_cases hc : queue.contains c.id
    · rw [if_pos hc]
      rw [ih queue]
      have hcm : c.id ∈ queue := by simpa using hc
      constructor
      · rintro (h | h)
        · exact Or.inl h
        · exact Or.inr (Or.inr h)
      · rintro (h | h | h)
        · exact Or.inl h
        · exact Or.inl (h ▸ hcm)
        · exact Or.inr h
    · rw [if_neg hc]
      rw [ih (queue ++ [c.id])]
      simp only [List.mem_append, List.mem_singleton]
      tauto

theorem followUpFold_nodup :
    ∀ (pend : List Campaign) (queue : List Nat), queue.Nodup →
      (pend.foldl (fun q c => if q.contains c.id then q else q ++ [c.id]) queue).Nodup := by
  intro pend
  induction pend with
  | nil => exact fun queue h => h
  | cons c cs ih =>
    intro queue h
    simp only [List.foldl_cons]
    by_cases hc : queue.contains c.id
    · rw [if_pos hc]
      exact ih queue h
    · rw [if_neg hc]
      apply ih
      refine ((List.perm_append_singleton c.id queue).nodup_iff).mpr ?_
      exact List.nodup_cons.mpr ⟨by simpa using hc, h⟩

/-- **C3, amended.** The `checkPendingFollowUps` scan of the
    `src/unnamed/part_002` variant deduplicates: starting from a
    duplicate-free queue, the queue after a scan is still duplicate-free
    (an already-queued campaign id is skipped, never appended twice), and it
    contains exactly the old ids plus the due campaign ids. The hourly scan
    of `src/schedulerService.js` has no such check and can queue the same
    campaign id twice (see the counterexample). -/
theorem checkPendingFollowUps_no_duplicates (queue : List Nat)
    (campaigns : List Campaign) (now : Int) (h : queue.Nodup) :
    (checkPendingFollowUps queue campaigns now).Nodup ∧
    ∀ i, i ∈ checkPendingFollowUps queue campaigns now ↔
      (i ∈ queue ∨ i ∈ (campaigns.filter (isDueFollowUp now)).map Campaign.id) := by
  refine ⟨followUpFold_nodup _ queue h, ?_⟩
  intro i
  exact followUpFold_mem i _ queue

/-- C3 amended witness: scanning two due copies of the same campaign id into
    an empty queue yields a single task. -/
theorem checkPendingFollowUps_no_duplicates_witness :
    (checkPendingFollowUps [] [campP, campP] 10).Nodup ∧
    ∀ i, i ∈ checkPendingFollowUps [] [campP, campP] 10 ↔
      (i ∈ ([] : List Nat) ∨
        i ∈ (([campP, campP] : List Campaign).filter (isDueFollowUp 10)).map Campaign.id) :=
  checkPendingFollowUps_no_duplicates [] [campP, campP] 10 (by decide)

/-! ## Follow-up dispatch pacing (C4)

`processQueue` drains `sendQueue` inside a single `while` loop guarded by
`isProcessingQueue`, so dispatch is strictly serial; the trace below models
one drain, all actions instantaneous except the sleeps. After every dispatch
attempt it sleeps
`Math.floor(Math.random() * (600000 - 300000 + 1) + 300000)` ms; a skipped
task (`continue`) bypasses both the send and the sleep. -/

/-- The randomized inter-task delay, in ms, from one `Math.random()` draw. -/
def followUpDelay (r : ℚ) : Int :=
  Int.floor (r * (600000 - 300000 + 1) + 300000)

theorem followUpDelay_bounds (r : ℚ) (h0 : 0 ≤ r) (h1 : r < 1) :
    300000 ≤ followUpDelay r ∧ followUpDelay r ≤ 600000 := by
  unfold followUpDelay
  constructor
  · apply Int.le_floor.mpr
    push_cast
    nlinarith
  · have h2 : (r * (600000 - 300000 + 1) + 300000 : ℚ) < 600001 := by nlinarith
    have h3 : Int.floor (r * (600000 - 300000 + 1) + 300000 : ℚ) < 600001 := by
      apply Int.floor_lt.mpr
      push_cast
      exact h2
    omega

/-- One drain of `processQueue` on the follow-up branch: the queued campaign
    ids in order, the current campaign table, and the `Math.random()` oracle
    (consumed once per dispatch attempt). Emits `(send time, campaign id)`
    for each dispatched task; a task whose campaign is missing or no longer
    `pending` is skipped with no send and no sleep. -/
def processQueueTrace (camps : List Campaign) (rand : Nat → ℚ) :
    List Nat → Nat → Int → List (Int × Nat)
  | [], _, _ => []
  | t :: ts, k, time =>
    match camps.find? (fun c => c.id == t) with
    | some c =>
      if c.followUpStatus == some "pending" then
        (time, t) :: processQueueTrace camps rand ts (k + 1) (time + followUpDelay (rand k))
      else processQueueTrace camps rand ts k time
    | none => processQueueTrace camps rand ts k time

theorem trace_head_time (camps : List Campaign) (rand : Nat → ℚ) :
    ∀ (ts : List Nat) (k : Nat) (time : Int) (p : Int × Nat),
      (processQueueTrace camps rand ts k time).head? = some p → p.1 = time := by
  intro ts
  induction ts with
  | nil =>
    intro k time p h
    simp [processQueueTrace] at h
  | cons t ts ih =>
    intro k time p h
    rw [processQueueTrace] at h
    cases hf : camps.find? (fun c => c.id == t) with
    | some c =>
      rw [hf] at h
      dsimp only at h
      by_cases hp : (c.followUpStatus == some "pending") = true
      · rw [if_pos hp] at h
        simp only [List.head?_cons, Option.some_inj] at h
        rw [← h]
      · rw [if_neg hp] at h
        exact ih k time p h
    | none =>
      rw [hf] at h
      dsimp only at h
      exact ih k time p h

/-- **C4.** The dispatch loop is modelled as a strictly serial drain (the
    `isProcessingQueue` guard admits a single loop). Every sleep drawn from
    `Math.random() ∈ [0,1)` lies in [300000 ms, 600000 ms], and along any
    drain, any two consecutive dispatched sends are at least 5 minutes and at
    most 10 minutes apart. -/
theorem followUp_pacing (camps : List Campaign) (rand : Nat → ℚ)
    (hr : ∀ n, 0 ≤ rand n ∧ rand n < 1) :
    (∀ r : ℚ, 0 ≤ r → r < 1 → 300000 ≤ followUpDelay r ∧ followUpDelay r ≤ 600000) ∧
    ∀ (ts : List Nat) (k : Nat) (time : Int),
      List.Chain' (fun a b => 300000 ≤ b.1 - a.1 ∧ b.1 - a.1 ≤ 600000)
        (processQueueTrace camps rand ts k time) := by
  refine ⟨fun r h0 h1 => followUpDelay_bounds r h0 h1, ?_⟩
  intro ts
  induction ts with
  | nil =>
    intro k time
    simp [processQueueTrace]
  | cons t ts ih =>
    intro k time
    rw [processQueueTrace]
    cases hf : camps.find? (fun c => c.id == t) with
    | some c =>
      dsimp only
      by_cases hp : (c.followUpStatus == some "pending") = true
      · rw [if_pos hp]
        apply List.chain'_cons'.mpr
        refine ⟨?_, ih (k + 1) (time + followUpDelay (rand k))⟩
        intro b hb
        have hbt := trace_head_time camps rand ts (k + 1)
          (time + followUpDelay (rand k)) b hb
        have hd := followUpDelay_bounds (rand k) (hr k).1 (hr k).2
        rw [hbt]
        constructor <;> omega
      · rw [if_neg hp]
        exact ih k time
    | none => exact ih k time

/-- Three campaigns, all with pending follow-ups. -/
def campsW : List Campaign :=
  [{ id := 1, hasFollowUp := true, followUpStatus := some "pending",
     followUpScheduledAt := some 0 },
   { id := 2, hasFollowUp := true, followUpStatus := some "pending",
     followUpScheduledAt := some 0 },
   { id := 3, hasFollowUp := true, followUpStatus := some "sent",
     followUpScheduledAt := some 0 }]

/-- C4 witness: with `Math.random()` pinned to 1/2, any drain of any queue
    over `campsW` respects the 5-to-10-minute spacing. -/
theorem followUp_pacing_witness :
    List.Chain' (fun a b => 300000 ≤ b.1 - a.1 ∧ b.1 - a.1 ≤ 600000)
      (processQueueTrace campsW (fun _ => (1 : ℚ) / 2) [1, 3, 2] 0 0) :=
  (followUp_pacing campsW (fun _ => (1 : ℚ) / 2)
    (fun _ => ⟨by norm_num, by norm_num⟩)).2 [1, 3, 2] 0 0

/-! ## sendEmail top-level success flag (C10, src/emailService.js) -/

/-- Outcome of one per-sender transport attempt
    (`transporter.sendMail` resolving or throwing). -/
inductive SenderOutcome
  | ok (messageId : String)
  | err (msg : String)
  deriving DecidableEq, Repr

/-- One entry of the `results` array pushed by the sender loop. -/
structure SenderResult where
  senderId : Nat
  success : Bool
  messageId : Option String
  errMsg : Option String
  deriving DecidableEq, Repr

/-- The value returned by `sendEmail`. -/
structure SendEmailResult where
  success : Bool
  results : List SenderResult
  deriving DecidableEq, Repr

/-- JavaScript truthiness of an optional string (empty string is falsy). -/
def truthyStr : Option String → Bool
  | none => false
  | some s => !s.isEmpty

/-- JavaScript truthiness of an optional array (an array is always truthy,
    even when empty). -/
def truthyArr : Option (List String) → Bool
  | none => false
  | some _ => true

/-- `sendEmail({to, subject, content, selectedSenders, ...})`: throws when a
    required field is missing, loops over the senders catching per-sender
    failures into `results`, and returns `{ success: true, results }`
    unconditionally at the end of the loop. -/
def sendEmail (toAddrs : Option (List String)) (subject content : Option String)
    (selectedSenders : List Nat) (attempt : Nat → SenderOutcome) :
    Except String SendEmailResult :=
  if !(truthyArr toAddrs) || !(truthyStr subject) || !(truthyStr content) then
    Except.error "Missing required email fields"
  else
    let senders := if selectedSenders.length > 0 then selectedSenders else [1]
    Except.ok
      { success := true
        results := senders.map fun sid =>
          match attempt sid with
          | SenderOutcome.ok mid =>
            { senderId := sid, success := true, messageId := some mid, errMsg := none }
          | SenderOutcome.err m =>
            { senderId := sid, success := false, messageId := none, errMsg := some m } }

/-- The follow-up status written by `processQueue` after the `sendEmail`
    call: an escaped exception is caught with no status write; otherwise the
    branch on `result.success` writes `sent` or `failed`. -/
def followUpStatusAfterDispatch (res : Except String SendEmailResult)
    (current : Option String) : Option String :=
  match res with
  | Except.error _ => current
  | Except.ok r => if r.success then some "sent" else some "failed"

/-- **C10.** When recipients, subject and content are all present,
    `sendEmail` resolves with top-level `success = true` even when every
    per-sender attempt failed — the failures sit only inside `results` — and
    the follow-up dispatcher, branching on the top-level flag alone, records
    `followUpStatus = sent`. -/
theorem sendEmail_success_despite_failures (toAddrs : List String)
    (subject content : String) (senders : List Nat)
    (attempt : Nat → SenderOutcome)
    (hs : subject.isEmpty = false) (hc : content.isEmpty = false)
    (hfail : ∀ sid, ∃ m, attempt sid = SenderOutcome.err m) :
    ∃ r, sendEmail (some toAddrs) (some subject) (some content) senders attempt
        = Except.ok r ∧
      r.success = true ∧
      (∀ x ∈ r.results, x.success = false) ∧
      followUpStatusAfterDispatch (Except.ok r) (some "pending") = some "sent" := by
  unfold sendEmail
  rw [if_neg (by simp [truthyArr, truthyStr, hs, hc])]
  refine ⟨_, rfl, rfl, ?_, rfl⟩
  intro x hx
  obtain ⟨sid, _, rfl⟩ := List.mem_map.mp hx
  obtain ⟨m, hm⟩ := hfail sid
  rw [hm]

/-- Every sender attempt throws. -/
def attemptFailW : Nat → SenderOutcome :=
  fun _ => SenderOutcome.err "SMTP connection failed"

/-- C10 witness: two senders, both failing, still yield a top-level success
    and a `sent` follow-up status. -/
theorem sendEmail_success_despite_failures_witness :
    ∃ r, sendEmail (some ["a@example.com"]) (some "Hi") (some "Body") [1, 2]
        attemptFailW = Except.ok r ∧
      r.success = true ∧
      (∀ x ∈ r.results, x.success = false) ∧
      followUpStatusAfterDispatch (Except.ok r) (some "pending") = some "sent" :=
  sendEmail_success_despite_failures ["a@example.com"] "Hi" "Body" [1, 2]
    attemptFailW rfl rfl (fun _ => ⟨"SMTP connection failed", rfl⟩)

end EmailBackend
